import Mathlib

/-!
Verification of the watermark-rendering core of the `watermarker` service.

The development shallowly embeds `services/watermark_service.py` together
with the data model of `models.py` and the defaults of `config.py`:

* pure helpers (`hex_to_rgb`, `hex_to_rgba`, corner-position tables, the
  tile-layout geometry) are translated to executable Lean functions, with
  Python's `int(str, 16)` parsing, `int(float)` truncation, floor division
  and `range` modelled explicitly;
* the pixel-pushing parts (PIL drawing, rotation resampling, PDF byte
  generation, docx XML) are embedded as explicit traces: each watermarker
  returns the structured description of the drawing commands, overlays and
  shapes it emits, exactly in the order and with the parameters of the
  source;
* the filesystem probed by font resolution and the external decoders
  (PIL `Image.open`, `PdfReader`, `Document`) enter as explicit parameters
  (`FileSystem`, `Codec`), so every definition stays computable.

Theorems `c1` … `c10` settle the frozen claims about this code.
-/

deriving instance DecidableEq for Except

namespace Watermarker

/-- Error taxonomy of the rendering core (spec section 7).  Python raises
`ValueError` for the color and dispatcher failures; the taxonomy names the
abstract error of each raise site. -/
inductive WatermarkError where
  | InvalidColorFormat
  | UnsupportedImageFormat
  | EncodingError
  | CorruptDocument
  | UnsupportedPageGeometry
  | UnsupportedDocumentStructure
  | UnsupportedFileType
deriving DecidableEq, Repr

/-- `WatermarkPosition` enum of `models.py`. -/
inductive WatermarkPosition where
  | tile
  | center
  | topLeft
  | topRight
  | bottomLeft
  | bottomRight
deriving DecidableEq, Repr

/-- `WatermarkConfig` of `models.py`; `opacity` and `angle` are Python
floats, modelled as rationals. -/
structure WatermarkConfig where
  font_size : ℕ
  font_color : String
  opacity : ℚ
  angle : ℚ
  spacing : ℕ
  position : WatermarkPosition
deriving DecidableEq, Repr

/-- Field defaults of `WatermarkConfig` in `models.py` (equal to
`DEFAULT_WATERMARK_CONFIG` of `config.py`). -/
def defaultWatermarkConfig : WatermarkConfig :=
  { font_size := 40
    font_color := "#808080"
    opacity := 3/10
    angle := -45
    spacing := 100
    position := WatermarkPosition.tile }

/-! ### Python primitives

`hex_to_rgb` feeds its slices to Python's `int(s, 16)`, so the embedding
models that parser: surrounding whitespace, an optional sign, an optional
`0x`/`0X` prefix and single underscores between digits are accepted. -/

/-- Characters stripped by Python's `int` before parsing. -/
def isPySpace (c : Char) : Bool :=
  c = ' ' || c = '\t' || c = '\n' || c = '\x0b' || c = '\x0c' || c = '\r'

/-- Value of one base-16 digit, upper or lower case. -/
def hexDigitVal (c : Char) : Option ℕ :=
  if '0' ≤ c ∧ c ≤ '9' then some (c.toNat - '0'.toNat)
  else if 'a' ≤ c ∧ c ≤ 'f' then some (c.toNat - 'a'.toNat + 10)
  else if 'A' ≤ c ∧ c ≤ 'F' then some (c.toNat - 'A'.toNat + 10)
  else none

/-- Digits after the first one: a single `_` may separate two digits. -/
def pyHexTail (acc : ℕ) : List Char → Option ℕ
  | [] => some acc
  | c :: cs =>
    if c = '_' then
      match cs with
      | [] => none
      | c2 :: cs2 =>
        match hexDigitVal c2 with
        | some d => pyHexTail (16 * acc + d) cs2
        | none => none
    else
      match hexDigitVal c with
      | some d => pyHexTail (16 * acc + d) cs
      | none => none

/-- A nonempty run of hex digits (with internal underscores). -/
def pyHexDigits : List Char → Option ℕ
  | [] => none
  | c :: cs =>
    match hexDigitVal c with
    | some d => pyHexTail d cs
    | none => none

/-- Digit part of `int(s, 16)`: optional `0x`/`0X` prefix, optionally
followed by one underscore, then digits. -/
def pyHexBody (l : List Char) : Option ℕ :=
  match l with
  | c0 :: c1 :: rest =>
    if c0 = '0' ∧ (c1 = 'x' ∨ c1 = 'X') then
      match rest with
      | [] => none
      | c2 :: rest2 => if c2 = '_' then pyHexDigits rest2 else pyHexDigits rest
    else pyHexDigits l
  | _ => pyHexDigits l

/-- Strip leading and trailing whitespace. -/
def pyStrip (l : List Char) : List Char :=
  ((l.dropWhile isPySpace).reverse.dropWhile isPySpace).reverse

/-- Python's `int(s, 16)`: whitespace-stripped, optionally signed hex
literal; `none` models the `ValueError` raise. -/
def pyIntHex (s : List Char) : Option ℤ :=
  match pyStrip s with
  | [] => none
  | c :: rest =>
    if c = '+' then (pyHexBody rest).map Int.ofNat
    else if c = '-' then (pyHexBody rest).map (fun n => -(Int.ofNat n))
    else (pyHexBody (c :: rest)).map Int.ofNat

/-- Python slice `l[i:i+n]`. -/
def pySlice (l : List Char) (i n : ℕ) : List Char :=
  (l.drop i).take n

/-- Python's `int(float)`: truncation toward zero. -/
def pyTrunc (q : ℚ) : ℤ :=
  if q < 0 then -⌊-q⌋ else ⌊q⌋

/-- Python's `range(0, n, step)` for nonnegative bounds (the tile loops).
Python raises `ValueError` on `step = 0`; that case cannot arise because
`spacing` is validated to `[20, 500]`, and is mapped to `[]` here. -/
def pyRangeNat (n step : ℕ) : List ℕ :=
  (List.range ((n + step - 1) / step)).map (· * step)

/-- Python's `range(a, b, step)` with positive `step` over integers (the
PDF tile loops); `step ≤ 0` cannot arise and is mapped to `[]`. -/
def pyRangeInt (a b step : ℤ) : List ℤ :=
  if step ≤ 0 then []
  else (List.range ((b - a + step - 1) / step).toNat).map (fun i => a + i * step)

/-! ### ColorModel: `hex_to_rgb` / `hex_to_rgba` -/

/-- `hex_to_rgb` of `watermark_service.py`: `lstrip("#")` removes every
leading `#`, then the three slices `[0:2]`, `[2:4]`, `[4:6]` go through
`int(-, 16)`; any parse failure raises, modelled as `InvalidColorFormat`. -/
def hex_to_rgb (s : String) : Except WatermarkError (ℤ × ℤ × ℤ) :=
  let t := s.data.dropWhile (· = '#')
  match pyIntHex (pySlice t 0 2), pyIntHex (pySlice t 2 2), pyIntHex (pySlice t 4 2) with
  | some r, some g, some b => Except.ok (r, g, b)
  | _, _, _ => Except.error WatermarkError.InvalidColorFormat

/-- `hex_to_rgba`: alpha is `int(opacity * 255)` — Python truncation. -/
def hex_to_rgba (s : String) (opacity : ℚ) :
    Except WatermarkError (ℤ × ℤ × ℤ × ℤ) := do
  let (r, g, b) ← hex_to_rgb s
  Except.ok (r, g, b, pyTrunc (opacity * 255))

/-! ### FontResolver: `get_font` and the PDF font registration -/

/-- The filesystem and font-library behaviour probed by the service:
`pathExists` is `Path(p).exists()`, `loadOk` is whether
`ImageFont.truetype(p, size)` succeeds, `registerOk` whether
`pdfmetrics.registerFont(TTFont(...))` succeeds. -/
structure FileSystem where
  pathExists : String → Bool
  loadOk : String → Bool
  registerOk : String → Bool

/-- `CHINESE_FONT_PATHS` of `watermark_service.py`, in source order. -/
def CHINESE_FONT_PATHS : List String :=
  [ "/usr/share/fonts/chinese/LXGWWenKai-Regular.ttf"
  , "C:/Windows/Fonts/msyh.ttc"
  , "C:/Windows/Fonts/msyhbd.ttc"
  , "C:/Windows/Fonts/simhei.ttf"
  , "C:/Windows/Fonts/simsun.ttc"
  , "C:/Windows/Fonts/simkai.ttf"
  , "C:/Windows/Fonts/STZHONGS.TTF"
  , "/System/Library/Fonts/PingFang.ttc"
  , "/System/Library/Fonts/STHeiti Light.ttc"
  , "/Library/Fonts/Arial Unicode.ttf" ]

/-- Candidate list built identically in `get_font` and
`_create_watermark_pdf`: the configured custom path when set and present,
then the fixed paths, then the fonts found by the `_find_cjk_fonts` glob
(`dyn`, a parameter: the glob result is filesystem state). -/
def fontCandidates (fs : FileSystem) (customPath : String) (dyn : List String) :
    List String :=
  (if customPath ≠ "" ∧ fs.pathExists customPath then [customPath] else [])
    ++ CHINESE_FONT_PATHS ++ dyn

/-- Result of `get_font`: a loaded font file (with face index 0 for `.ttc`
collections) or PIL's built-in default font. -/
inductive FontHandle where
  | file (path : String) (size : ℕ) (ttcIndex : Option ℕ)
  | builtin
deriving DecidableEq, Repr

/-- `font_path.lower().endswith('.ttc')`. -/
def ttcSuffix (p : String) : Bool :=
  p.toLower.endsWith ".ttc"

/-- The `for font_path in font_paths` loop of `get_font`: a candidate that
does not exist is skipped, one that exists but fails to load is skipped
(`except ... continue`), the first that exists and loads is returned. -/
def fontLoadLoop (fs : FileSystem) (size : ℕ) : List String → FontHandle
  | [] => FontHandle.builtin
  | p :: rest =>
    if fs.pathExists p then
      if fs.loadOk p then
        FontHandle.file p size (if ttcSuffix p then some 0 else none)
      else fontLoadLoop fs size rest
    else fontLoadLoop fs size rest

/-- `get_font(size)` of `watermark_service.py`. -/
def get_font (fs : FileSystem) (customPath : String) (dyn : List String)
    (size : ℕ) : FontHandle :=
  fontLoadLoop fs size (fontCandidates fs customPath dyn)

/-- CPython `PurePath.stem`: the final path component without its suffix;
a dot at position 0 or at the very end does not start a suffix. -/
def pathStem (p : String) : String :=
  let base := (p.splitOn "/").getLastD ""
  let cs := base.data
  match cs.reverse.findIdx? (· = '.') with
  | none => base
  | some r =>
    let i := cs.length - 1 - r
    if 0 < i ∧ i < cs.length - 1 then String.mk (cs.take i) else base

/-- `path_obj.stem.lower().replace(' ', '_')` — the reportlab registration
name generated in `_create_watermark_pdf`. -/
def fontRegName (p : String) : String :=
  (pathStem p).toLower.replace " " "_"

/-- The registration loop of `_create_watermark_pdf`: first candidate that
exists and registers wins (`break`); registration failures are swallowed
(`except Exception: continue`); `none` keeps `"Helvetica"`. -/
def registerFontLoop (fs : FileSystem) : List String → Option String
  | [] => none
  | p :: rest =>
    if fs.pathExists p then
      if fs.registerOk p then some (fontRegName p)
      else registerFontLoop fs rest
    else registerFontLoop fs rest

/-! ### RasterWatermarker (`ImageWatermarker`) -/

/-- Trace of `_add_tile_watermark`: the oversized square surface, the grid
of text draws, the rotation, the center crop and the final paste. -/
structure TileTrace where
  tempSize : ℕ
  tiles : List (ℕ × ℕ)
  rotateAngle : ℚ
  rotateExpand : Bool
  cropLeft : ℤ
  cropTop : ℤ
  cropRight : ℤ
  cropBottom : ℤ
  pastePos : ℤ × ℤ
deriving DecidableEq, Repr

/-- `_add_tile_watermark(draw, img_size, text, font, color, text_width,
text_height, spacing, angle)`.  `temp_size = int(math.sqrt(w*w + h*h) * 1.5)`
is `Nat.sqrt (9 * (w^2 + h^2)) / 2`: both equal `⌊1.5 * √(w² + h²)⌋`
(theorem `tempSize_eq_floor`).  The two nested `range` loops draw at every
grid point `(x, y)` with `x` stepping by `text_width + spacing` and `y` by
`text_height + spacing`; the layer is rotated with `expand=False` and
cropped to `(left, top, left + w, top + h)` around the surface center. -/
def addTileWatermark (w h text_width text_height spacing : ℕ) (angle : ℚ) :
    TileTrace :=
  let temp_size := Nat.sqrt (9 * (w ^ 2 + h ^ 2)) / 2
  let step_x := text_width + spacing
  let step_y := text_height + spacing
  let tiles :=
    (pyRangeNat temp_size step_y).flatMap
      (fun y => (pyRangeNat temp_size step_x).map (fun x => (x, y)))
  let left : ℤ := (temp_size / 2 : ℕ) - (w / 2 : ℕ)
  let top : ℤ := (temp_size / 2 : ℕ) - (h / 2 : ℕ)
  { tempSize := temp_size
    tiles := tiles
    rotateAngle := angle
    rotateExpand := false
    cropLeft := left
    cropTop := top
    cropRight := left + w
    cropBottom := top + h
    pastePos := (0, 0) }

/-- `_get_corner_position(img_size, text_width, text_height, position)`:
the Python dict lookup with default `(margin, margin)` becomes a match
whose fall-through arm covers every non-corner position. -/
def ImageWatermarker_getCornerPosition (w h text_width text_height : ℕ)
    (position : WatermarkPosition) : ℤ × ℤ :=
  let margin : ℤ := 20
  match position with
  | WatermarkPosition.topLeft => (margin, margin)
  | WatermarkPosition.topRight => ((w : ℤ) - text_width - margin, margin)
  | WatermarkPosition.bottomLeft => (margin, (h : ℤ) - text_height - margin)
  | WatermarkPosition.bottomRight =>
      ((w : ℤ) - text_width - margin, (h : ℤ) - text_height - margin)
  | _ => (margin, margin)

/-- What `ImageWatermarker.add_watermark` draws on the overlay layer. -/
inductive ImagePlan where
  | tile (t : TileTrace)
  | single (pos : ℤ × ℤ)
deriving DecidableEq, Repr

/-- Trace of one raster render: overlay size, RGBA fill, resolved font,
draw plan, the whole-layer rotation (non-tile, nonzero angle only), the
RGB flattening for JPEG and the format passed to `save`. -/
structure ImageTrace where
  size : ℕ × ℕ
  color : ℤ × ℤ × ℤ × ℤ
  font : FontHandle
  plan : ImagePlan
  layerRotate : Option ℚ
  convertRGB : Bool
  saveFormat : String
deriving DecidableEq, Repr

/-- Body of `ImageWatermarker.add_watermark` after the image is decoded
and the text measured: color via `hex_to_rgba`, placement per position
(center is `(w - tw) // 2, (h - th) // 2` in floor division), and the
layer rotation `rotate(angle, expand=False)` only when the position is
not TILE and the angle nonzero. -/
def imageCore (w h text_width text_height : ℕ) (font : FontHandle)
    (cfg : WatermarkConfig) (output_format : String) :
    Except WatermarkError ImageTrace := do
  let color ← hex_to_rgba cfg.font_color cfg.opacity
  let plan :=
    if cfg.position = WatermarkPosition.tile then
      ImagePlan.tile (addTileWatermark w h text_width text_height cfg.spacing cfg.angle)
    else if cfg.position = WatermarkPosition.center then
      ImagePlan.single
        (Int.ediv ((w : ℤ) - text_width) 2, Int.ediv ((h : ℤ) - text_height) 2)
    else
      ImagePlan.single
        (ImageWatermarker_getCornerPosition w h text_width text_height cfg.position)
  let layerRotate :=
    if cfg.position ≠ WatermarkPosition.tile ∧ cfg.angle ≠ 0 then some cfg.angle
    else none
  let up := output_format.toUpper
  Except.ok
    { size := (w, h)
      color := color
      font := font
      plan := plan
      layerRotate := layerRotate
      convertRGB := up = "JPEG" ∨ up = "JPG"
      saveFormat := if up = "JPEG" ∨ up = "JPG" then "JPEG" else up }

/-! ### PagedDocWatermarker (`PDFWatermarker`) -/

/-- What `_create_watermark_pdf` draws on the overlay page. -/
inductive PdfPlan where
  | tile (spacing : ℚ) (angle : ℚ) (grid : List (ℤ × ℤ))
  | center (angle : ℚ)
  | corner (pos : ℚ × ℚ)
deriving DecidableEq, Repr

/-- The single overlay page produced by `_create_watermark_pdf`:
fill alpha, fill color (each channel divided by 255), the font finally
set, and the drawing plan. -/
structure PdfOverlay where
  alpha : ℚ
  rgb : ℚ × ℚ × ℚ
  fontName : String
  fontSize : ℕ
  plan : PdfPlan
deriving DecidableEq, Repr

/-- reportlab `letter` page width in points (8.5 in × 72). -/
def letterWidth : ℚ := 612

/-- reportlab `letter` page height in points (11 in × 72). -/
def letterHeight : ℚ := 792

/-- `PDFWatermarker._get_corner_position(width, height, font_size,
text_len, position)`: 50 pt margin, text width approximated as
`font_size * text_len * 0.6`. -/
def PDFWatermarker_getCornerPosition (width height : ℚ) (font_size text_len : ℕ)
    (position : WatermarkPosition) : ℚ × ℚ :=
  let margin : ℚ := 50
  let text_width : ℚ := (font_size : ℚ) * text_len * (3/5)
  match position with
  | WatermarkPosition.topLeft => (margin, height - margin)
  | WatermarkPosition.topRight => (width - text_width - margin, height - margin)
  | WatermarkPosition.bottomLeft => (margin, margin)
  | WatermarkPosition.bottomRight => (width - text_width - margin, margin)
  | _ => (margin, margin)

/-- `PDFWatermarker._create_watermark_pdf(text, config)`.  The TILE branch
widens the spacing to `config.spacing + config.font_size * len(text) * 0.6`
and draws at every `(x, y)` of
`range(-int(height), int(height), int(spacing)) ×
range(-int(width), int(width), int(spacing))` after translating to the
page center and rotating by `config.angle`. -/
def PDFWatermarker_createWatermarkPdf (fs : FileSystem) (customPath : String)
    (dyn : List String) (text : String) (cfg : WatermarkConfig) :
    Except WatermarkError PdfOverlay := do
  let (r, g, b) ← hex_to_rgb cfg.font_color
  let fontName :=
    match registerFontLoop fs (fontCandidates fs customPath dyn) with
    | some n => n
    | none => "Helvetica"
  let plan :=
    if cfg.position = WatermarkPosition.tile then
      let spacing : ℚ := (cfg.spacing : ℚ) + (cfg.font_size : ℚ) * text.length * (3/5)
      let step := pyTrunc spacing
      let ys := pyRangeInt (-pyTrunc letterHeight) (pyTrunc letterHeight) step
      let xs := pyRangeInt (-pyTrunc letterWidth) (pyTrunc letterWidth) step
      PdfPlan.tile spacing cfg.angle
        (ys.flatMap (fun y => xs.map (fun x => (x, y))))
    else if cfg.position = WatermarkPosition.center then
      PdfPlan.center cfg.angle
    else
      PdfPlan.corner
        (PDFWatermarker_getCornerPosition letterWidth letterHeight
          cfg.font_size text.length cfg.position)
  Except.ok
    { alpha := cfg.opacity
      rgb := ((r : ℚ) / 255, (g : ℚ) / 255, (b : ℚ) / 255)
      fontName := fontName
      fontSize := cfg.font_size
      plan := plan }

/-- One page of the parsed input PDF: its original content (abstract id)
and the overlays merged onto it so far. -/
structure PdfPage where
  contentId : ℕ
  overlays : List PdfOverlay
deriving DecidableEq, Repr

/-- `page.merge_page(watermark_page)`: stacks the overlay onto the page
content, leaving the original content in place. -/
def mergePage (wm : PdfOverlay) (p : PdfPage) : PdfPage :=
  { p with overlays := p.overlays ++ [wm] }

/-! ### FlowDocWatermarker (`WordWatermarker`) -/

/-- The VML shape built in `_add_watermark_to_section`: each attribute of
the `v:shape` / `v:fill` / `v:textpath` elements that depends on the
request.  The style string writes `rotation:{int(config.angle)}` — the
angle truncated by Python `int`. -/
structure WordShape where
  shapeId : String
  shapeType : String
  widthPt : ℕ
  heightPt : ℕ
  rotation : ℤ
  fillcolor : String
  fillOpacity : ℚ
  textFontFamily : String
  textFontSizePt : ℕ
  textString : String
deriving DecidableEq, Repr

/-- The shape as a function of the request. -/
def wordShapeFor (text : String) (cfg : WatermarkConfig) : WordShape :=
  { shapeId := "watermark"
    shapeType := "#_x0000_t136"
    widthPt := 500
    heightPt := 200
    rotation := pyTrunc cfg.angle
    fillcolor := cfg.font_color
    fillOpacity := cfg.opacity
    textFontFamily := "Microsoft YaHei"
    textFontSizePt := cfg.font_size
    textString := text }

/-- A run inside a header paragraph; the watermark run carries the shape. -/
structure WordRun where
  pict : Option WordShape
deriving DecidableEq, Repr

/-- A paragraph of a section header. -/
structure WordPara where
  runs : List WordRun
deriving DecidableEq, Repr

/-- One document section, owning its header's paragraph list (python-docx
`section.header.paragraphs`). -/
structure DocSection where
  headerParas : List WordPara
deriving DecidableEq, Repr

/-- Appending the watermark run to the first paragraph; the `[]` arm is
unreachable because the caller just ensured the list is nonempty
(`header.add_paragraph()`). -/
def appendShapeToFirstPara (ps : List WordPara) (sh : WordShape) :
    List WordPara :=
  match ps with
  | [] => []
  | p :: rest => { runs := p.runs ++ [{ pict := some sh }] } :: rest

/-- `_add_watermark_to_section(section, text, config)`: create the header
paragraph when the header has none, compute `hex_to_rgb(config.font_color)`
(its failure propagates), then append a run holding the shape to the first
header paragraph. -/
def addWatermarkToSection (text : String) (cfg : WatermarkConfig)
    (s : DocSection) : Except WatermarkError DocSection := do
  let ps := if s.headerParas.isEmpty then s.headerParas ++ [{ runs := [] }]
            else s.headerParas
  let _ ← hex_to_rgb cfg.font_color
  Except.ok { headerParas := appendShapeToFirstPara ps (wordShapeFor text cfg) }

/-- The `for section in doc.sections` loop of `WordWatermarker.add_watermark`. -/
def wordApplyAll (text : String) (cfg : WatermarkConfig)
    (secs : List DocSection) : Except WatermarkError (List DocSection) :=
  secs.mapM (addWatermarkToSection text cfg)

/-! ### External decoders and the dispatcher -/

/-- The external decoders handed to the core: `Image.open` (canvas size),
`draw.textbbox` (text metrics under a resolved font), `PdfReader` (page
list) and `Document` (section list).  They are parameters of the
embedding — the core never inspects raw bytes itself. -/
structure Codec where
  decodeImage : List ℕ → Except WatermarkError (ℕ × ℕ)
  measureText : FontHandle → String → ℕ × ℕ
  decodePdf : List ℕ → Except WatermarkError (List PdfPage)
  decodeWord : List ℕ → Except WatermarkError (List DocSection)

/-- `ImageWatermarker.add_watermark(image_data, text, config,
output_format)`: decode, resolve the font at `config.font_size`, measure
the text, then run the drawing logic. -/
def ImageWatermarker_addWatermark (fs : FileSystem) (customPath : String)
    (dyn : List String) (codec : Codec) (image_data : List ℕ) (text : String)
    (cfg : WatermarkConfig) (output_format : String) :
    Except WatermarkError ImageTrace := do
  let (w, h) ← codec.decodeImage image_data
  let font := get_font fs customPath dyn cfg.font_size
  let (text_width, text_height) := codec.measureText font text
  imageCore w h text_width text_height font cfg output_format

/-- `PDFWatermarker.add_watermark(pdf_data, text, config)`: build the
overlay page once, parse the input pages, merge the same overlay onto
every page in order (`for page in reader.pages: page.merge_page(...);
writer.add_page(page)`). -/
def PDFWatermarker_addWatermark (fs : FileSystem) (customPath : String)
    (dyn : List String) (codec : Codec) (pdf_data : List ℕ) (text : String)
    (cfg : WatermarkConfig) : Except WatermarkError (List PdfPage) := do
  let wm ← PDFWatermarker_createWatermarkPdf fs customPath dyn text cfg
  let pages ← codec.decodePdf pdf_data
  Except.ok (pages.map (mergePage wm))

/-- `WordWatermarker.add_watermark(docx_data, text, config)`. -/
def WordWatermarker_addWatermark (codec : Codec) (docx_data : List ℕ)
    (text : String) (cfg : WatermarkConfig) :
    Except WatermarkError (List DocSection) := do
  let secs ← codec.decodeWord docx_data
  wordApplyAll text cfg secs

/-- Result of a dispatched render: the trace/output of the watermarker the
tag routed to. -/
inductive RenderOutput where
  | image (tr : ImageTrace)
  | pdf (pages : List PdfPage)
  | word (secs : List DocSection)
deriving DecidableEq, Repr

/-- The `format_map.get(file_extension.lower(), "PNG")` table of
`add_watermark`. -/
def formatFromExt (ext : String) : String :=
  let e := ext.toLower
  if e = ".jpg" ∨ e = ".jpeg" then "JPEG"
  else if e = ".png" then "PNG"
  else if e = ".gif" then "GIF"
  else if e = ".bmp" then "BMP"
  else if e = ".webp" then "WEBP"
  else if e = ".tiff" then "TIFF"
  else "PNG"

/-- The dispatcher `add_watermark(file_data, text, file_type, config,
file_extension)`: substitute the default config when `config is None`,
route by the type tag, raise (`ValueError`, the `UnsupportedFileType`
error) for every other tag. -/
def add_watermark (fs : FileSystem) (customPath : String) (dyn : List String)
    (codec : Codec) (file_data : List ℕ) (text : String) (file_type : String)
    (config : Option WatermarkConfig) (file_extension : String) :
    Except WatermarkError RenderOutput :=
  let cfg := config.getD defaultWatermarkConfig
  if file_type = "image" then
    (ImageWatermarker_addWatermark fs customPath dyn codec file_data text cfg
      (formatFromExt file_extension)).map RenderOutput.image
  else if file_type = "pdf" then
    (PDFWatermarker_addWatermark fs customPath dyn codec file_data text
      cfg).map RenderOutput.pdf
  else if file_type = "word" then
    (WordWatermarker_addWatermark codec file_data text cfg).map RenderOutput.word
  else Except.error WatermarkError.UnsupportedFileType

/-! ### Helper lemmas on the Python primitives -/

theorem exceptBindOk {ε α β : Type} (a : α) (f : α → Except ε β) :
    (Except.ok a >>= f) = f a := rfl

theorem exceptBindError {ε α β : Type} (e : ε) (f : α → Except ε β) :
    ((Except.error e : Except ε α) >>= f) = Except.error e := rfl

theorem hexDigitVal_isSome_iff (c : Char) :
    (hexDigitVal c).isSome ↔
      (('0' ≤ c ∧ c ≤ '9') ∨ ('a' ≤ c ∧ c ≤ 'f') ∨ ('A' ≤ c ∧ c ≤ 'F')) := by
  unfold hexDigitVal
  split_ifs with h1 h2 h3 <;> simp_all

theorem hexDigit_char_ne {c : Char} {d : ℕ} (h : hexDigitVal c = some d)
    {c' : Char} (hc' : hexDigitVal c' = none) : c ≠ c' := by
  rintro rfl
  rw [hc'] at h
  exact Option.noConfusion h

theorem hexDigit_not_pySpace {c : Char} {d : ℕ} (h : hexDigitVal c = some d) :
    isPySpace c = false := by
  cases hx : isPySpace c
  · rfl
  exfalso
  have hd : c = ' ' ∨ c = '\t' ∨ c = '\n' ∨ c = '\x0b' ∨ c = '\x0c' ∨ c = '\r' := by
    simpa [isPySpace, or_assoc] using hx
  rcases hd with rfl | rfl | rfl | rfl | rfl | rfl
  · rw [show hexDigitVal ' ' = none from by decide] at h; exact Option.noConfusion h
  · rw [show hexDigitVal '\t' = none from by decide] at h; exact Option.noConfusion h
  · rw [show hexDigitVal '\n' = none from by decide] at h; exact Option.noConfusion h
  · rw [show hexDigitVal '\x0b' = none from by decide] at h; exact Option.noConfusion h
  · rw [show hexDigitVal '\x0c' = none from by decide] at h; exact Option.noConfusion h
  · rw [show hexDigitVal '\r' = none from by decide] at h; exact Option.noConfusion h

theorem dropWhile_eq_self_of_all {p : Char → Bool} :
    ∀ l : List Char, (∀ c ∈ l, p c = false) → l.dropWhile p = l := by
  intro l hl
  cases l with
  | nil => rfl
  | cons a l => simp [List.dropWhile, hl a (by simp)]

theorem pyStrip_of_hex {l : List Char}
    (hl : ∀ c ∈ l, ∃ d, hexDigitVal c = some d) : pyStrip l = l := by
  have hns : ∀ c ∈ l, isPySpace c = false := by
    intro c hc
    obtain ⟨d, hd⟩ := hl c hc
    exact hexDigit_not_pySpace hd
  unfold pyStrip
  rw [dropWhile_eq_self_of_all l hns,
    dropWhile_eq_self_of_all l.reverse (fun c hc => hns c (List.mem_reverse.mp hc)),
    List.reverse_reverse]

theorem pyHexTail_of_hex (acc : ℕ) :
    ∀ l : List Char, (∀ c ∈ l, ∃ d, hexDigitVal c = some d) →
      ∃ n, pyHexTail acc l = some n := by
  intro l
  induction l generalizing acc with
  | nil => exact fun _ => ⟨acc, rfl⟩
  | cons c cs ih =>
    intro hl
    obtain ⟨d, hd⟩ := hl c (by simp)
    have hne : c ≠ '_' := hexDigit_char_ne hd (by decide)
    obtain ⟨n, hn⟩ := ih (16 * acc + d) (fun c' hc' => hl c' (by simp [hc']))
    refine ⟨n, ?_⟩
    rw [pyHexTail.eq_def]
    simp only [if_neg hne, hd]
    exact hn

theorem pyHexDigits_of_hex {l : List Char} (hne : l ≠ [])
    (hl : ∀ c ∈ l, ∃ d, hexDigitVal c = some d) :
    ∃ n, pyHexDigits l = some n := by
  cases l with
  | nil => exact absurd rfl hne
  | cons c cs =>
    obtain ⟨d, hd⟩ := hl c (by simp)
    obtain ⟨n, hn⟩ := pyHexTail_of_hex d cs (fun c' hc' => hl c' (by simp [hc']))
    exact ⟨n, by simp only [pyHexDigits, hd]; exact hn⟩

theorem pyHexBody_of_hex {l : List Char} (hne : l ≠ [])
    (hl : ∀ c ∈ l, ∃ d, hexDigitVal c = some d) :
    ∃ n, pyHexBody l = some n := by
  match l with
  | [] => exact absurd rfl hne
  | [c] => exact pyHexDigits_of_hex (by simp) hl
  | c0 :: c1 :: rest =>
    obtain ⟨d1, hd1⟩ := hl c1 (by simp)
    have hx : ¬ (c0 = '0' ∧ (c1 = 'x' ∨ c1 = 'X')) := by
      rintro ⟨-, hc1 | hc1⟩
      · exact hexDigit_char_ne hd1 (by decide) hc1
      · exact hexDigit_char_ne hd1 (by decide) hc1
    simp only [pyHexBody, if_neg hx]
    exact pyHexDigits_of_hex (by simp) hl

theorem pyIntHex_of_hex {l : List Char} (hne : l ≠ [])
    (hl : ∀ c ∈ l, ∃ d, hexDigitVal c = some d) :
    ∃ n : ℤ, pyIntHex l = some n := by
  have hstrip := pyStrip_of_hex hl
  match hm : l with
  | [] => exact absurd rfl hne
  | c :: rest =>
    obtain ⟨d, hd⟩ := hl c (by simp)
    obtain ⟨n, hn⟩ := pyHexBody_of_hex (l := c :: rest) (by simp) hl
    refine ⟨(n : ℤ), ?_⟩
    simp only [pyIntHex, hstrip, if_neg (hexDigit_char_ne hd (by decide) : c ≠ '+'),
      if_neg (hexDigit_char_ne hd (by decide) : c ≠ '-'), hn]
    rfl

theorem pyIntHex_pair {c0 c1 : Char} {d0 d1 : ℕ}
    (h0 : hexDigitVal c0 = some d0) (h1 : hexDigitVal c1 = some d1) :
    pyIntHex [c0, c1] = some ((16 * d0 + d1 : ℕ) : ℤ) := by
  have hl : ∀ c ∈ [c0, c1], ∃ d, hexDigitVal c = some d := by
    intro c hc
    rcases (by simpa using hc : c = c0 ∨ c = c1) with rfl | rfl
    · exact ⟨d0, h0⟩
    · exact ⟨d1, h1⟩
  have hstrip := pyStrip_of_hex hl
  have hx : ¬ (c0 = '0' ∧ (c1 = 'x' ∨ c1 = 'X')) := by
    rintro ⟨-, hc1 | hc1⟩
    · exact hexDigit_char_ne h1 (by decide) hc1
    · exact hexDigit_char_ne h1 (by decide) hc1
  simp only [pyIntHex, hstrip, if_neg (hexDigit_char_ne h0 (by decide) : c0 ≠ '+'),
    if_neg (hexDigit_char_ne h0 (by decide) : c0 ≠ '-'), pyHexBody, if_neg hx,
    pyHexDigits, h0, pyHexTail, if_neg (hexDigit_char_ne h1 (by decide) : c1 ≠ '_'),
    h1]
  rfl

/-! ### Claim C4 -/

/-- The claim's own reading of the contract: strip at most one leading
`#`, then demand exactly six hex digits.  Used only to state the
counterexample. -/
def stripAtMostOneHash (s : String) : String :=
  match s.data with
  | '#' :: rest => String.mk rest
  | _ => s

/-- Exactly six hexadecimal digits. -/
def isSixHexDigitString (s : String) : Bool :=
  s.length = 6 && s.data.all (fun c => (hexDigitVal c).isSome)

/-- C4, counterexample.  On `"##0808a"` the claim demands
`InvalidColorFormat` — after one `#` is stripped, `"#0808a"` is not six
hex digits — but `hex_to_rgb` strips `#` repeatedly (`lstrip`) and then
accepts the five-digit remainder `"0808a"`, returning `(8, 8, 10)`:
`int("a", 16)` parses the final one-character slice. -/
theorem c4_counterexample :
    hex_to_rgb "##0808a" = Except.ok (8, 8, 10)
      ∧ isSixHexDigitString (stripAtMostOneHash "##0808a") = false := by
  constructor
  · decide
  · decide

/-- C4, amended: `hex_to_rgb` strips every leading `#` (not at most one);
a remainder of exactly six hex digits yields the three consecutive digit
pairs, independent of letter case (the digit values determine the result,
and upper-casing a hex letter keeps its value); an all-hex remainder
shorter than five characters fails with `InvalidColorFormat`, while any
all-hex remainder of length at least five succeeds (so failure is not
equivalent to "not exactly six hex digits"). -/
theorem c4_amended :
    (∀ s : String, hex_to_rgb ("#" ++ s) = hex_to_rgb s)
    ∧ (∀ c0 c1 c2 c3 c4 c5 : Char, ∀ d0 d1 d2 d3 d4 d5 : ℕ,
        hexDigitVal c0 = some d0 → hexDigitVal c1 = some d1 →
        hexDigitVal c2 = some d2 → hexDigitVal c3 = some d3 →
        hexDigitVal c4 = some d4 → hexDigitVal c5 = some d5 →
        hex_to_rgb (String.mk [c0, c1, c2, c3, c4, c5])
          = Except.ok (16 * (d0 : ℤ) + d1, 16 * (d2 : ℤ) + d3, 16 * (d4 : ℤ) + d5))
    ∧ (∀ s : String, (∀ c ∈ s.data, ∃ d, hexDigitVal c = some d) →
        s.data.length ≤ 4 →
        hex_to_rgb s = Except.error WatermarkError.InvalidColorFormat)
    ∧ (∀ s : String, (∀ c ∈ s.data, ∃ d, hexDigitVal c = some d) →
        5 ≤ s.data.length → ∃ r g b, hex_to_rgb s = Except.ok (r, g, b))
    ∧ (∀ c ∈ ['a', 'b', 'c', 'd', 'e', 'f'], hexDigitVal c.toUpper = hexDigitVal c) := by
  refine ⟨?_, ?_, ?_, ?_, by decide⟩
  · intro s
    obtain ⟨l⟩ := s
    show hex_to_rgb (String.mk ('#' :: l)) = hex_to_rgb (String.mk l)
    simp [hex_to_rgb, List.dropWhile]
  · intro c0 c1 c2 c3 c4 c5 d0 d1 d2 d3 d4 d5 h0 h1 h2 h3 h4 h5
    have hall : ∀ c ∈ [c0, c1, c2, c3, c4, c5], ((· = '#') c : Bool) = false := by
      intro c hc
      rcases (by simpa using hc : c = c0 ∨ c = c1 ∨ c = c2 ∨ c = c3 ∨ c = c4 ∨ c = c5)
        with rfl | rfl | rfl | rfl | rfl | rfl
      · exact decide_eq_false (hexDigit_char_ne h0 (by decide))
      · exact decide_eq_false (hexDigit_char_ne h1 (by decide))
      · exact decide_eq_false (hexDigit_char_ne h2 (by decide))
      · exact decide_eq_false (hexDigit_char_ne h3 (by decide))
      · exact decide_eq_false (hexDigit_char_ne h4 (by decide))
      · exact decide_eq_false (hexDigit_char_ne h5 (by decide))
    simp only [hex_to_rgb,
      show (String.mk [c0, c1, c2, c3, c4, c5]).data = [c0, c1, c2, c3, c4, c5] from rfl,
      dropWhile_eq_self_of_all _ hall,
      show pySlice [c0, c1, c2, c3, c4, c5] 0 2 = [c0, c1] from rfl,
      show pySlice [c0, c1, c2, c3, c4, c5] 2 2 = [c2, c3] from rfl,
      show pySlice [c0, c1, c2, c3, c4, c5] 4 2 = [c4, c5] from rfl,
      pyIntHex_pair h0 h1, pyIntHex_pair h2 h3, pyIntHex_pair h4 h5]
    push_cast
    rfl
  · intro s hhex hlen
    obtain ⟨l⟩ := s
    have hdrop : l.dropWhile (· = '#') = l :=
      dropWhile_eq_self_of_all l (fun c hc =>
        (hhex c hc).elim fun d hd => decide_eq_false (hexDigit_char_ne hd (by decide)))
    have hslice : pySlice l 4 2 = [] := by
      simp [pySlice, List.drop_eq_nil_of_le hlen]
    simp only [hex_to_rgb, hdrop, hslice, show pyIntHex [] = none from rfl]
    cases pyIntHex (pySlice l 0 2) <;> cases pyIntHex (pySlice l 2 2) <;> rfl
  · intro s hhex hlen
    obtain ⟨l⟩ := s
    have hlen5 : 5 ≤ l.length := hlen
    have hdrop : l.dropWhile (· = '#') = l :=
      dropWhile_eq_self_of_all l (fun c hc =>
        (hhex c hc).elim fun d hd => decide_eq_false (hexDigit_char_ne hd (by decide)))
    have hsub : ∀ i, ∀ c ∈ pySlice l i 2, ∃ d, hexDigitVal c = some d := by
      intro i c hc
      exact hhex c (List.drop_subset i l (List.take_subset 2 (l.drop i) hc))
    have hlen' : ∀ i, i ≤ 4 → pySlice l i 2 ≠ [] := by
      intro i hi
      have : 0 < (pySlice l i 2).length := by
        simp only [pySlice, List.length_take, List.length_drop]
        omega
      exact List.ne_nil_of_length_pos this
    obtain ⟨n1, h1⟩ := pyIntHex_of_hex (hlen' 0 (by omega)) (hsub 0)
    obtain ⟨n2, h2⟩ := pyIntHex_of_hex (hlen' 2 (by omega)) (hsub 2)
    obtain ⟨n3, h3⟩ := pyIntHex_of_hex (hlen' 4 (by omega)) (hsub 4)
    exact ⟨n1, n2, n3, by simp only [hex_to_rgb, hdrop, h1, h2, h3]⟩

/-- C4, witness for the amended claim: six plain digits round-trip. -/
theorem c4_witness :
    hex_to_rgb (String.mk ['8', '0', '8', '0', '8', '0']) = Except.ok (128, 128, 128) :=
  (c4_amended.2.1 '8' '0' '8' '0' '8' '0' 8 0 8 0 8 0
      (by decide) (by decide) (by decide) (by decide) (by decide) (by decide)).trans
    (by decide)

/-! ### Claim C5 -/

/-- C5, counterexample.  At opacity `25/64` (exactly representable, so
the Python float computation is exact) the code's `int(opacity * 255)`
truncates `99.609375` to `99`, while the claimed `round(opacity * 255)`
is `100`. -/
theorem c5_counterexample :
    hex_to_rgba "#808080" (25/64) = Except.ok (128, 128, 128, 99)
      ∧ round ((25 : ℚ)/64 * 255) = 100 := by
  constructor
  · have hpt : pyTrunc ((25 : ℚ)/64 * 255) = 99 := by
      unfold pyTrunc
      rw [if_neg (by norm_num)]
      norm_num [Rat.floor_def]
    simp only [hex_to_rgba,
      show hex_to_rgb "#808080" = Except.ok (128, 128, 128) from by decide, hpt]
    rfl
  · rw [round_eq]
    norm_num [Rat.floor_def]

/-- C5, amended: the alpha channel is `⌊opacity * 255⌋` — `int()`
truncation, which agrees with the floor for the nonnegative opacities
admitted by validation — not `round(opacity * 255)`. -/
theorem c5_amended (s : String) (opacity : ℚ) (r g b : ℤ)
    (h0 : 0 ≤ opacity) (hrgb : hex_to_rgb s = Except.ok (r, g, b)) :
    hex_to_rgba s opacity = Except.ok (r, g, b, ⌊opacity * 255⌋) := by
  have htr : pyTrunc (opacity * 255) = ⌊opacity * 255⌋ := by
    unfold pyTrunc
    rw [if_neg (not_lt.mpr (mul_nonneg h0 (by norm_num)))]
  simp only [hex_to_rgba, hrgb, htr]
  rfl

/-- C5, witness: the default configuration's opacity `0.3` yields alpha
`⌊76.5⌋ = 76`. -/
theorem c5_witness :
    hex_to_rgba "#808080" (3/10) = Except.ok (128, 128, 128, 76) :=
  (c5_amended "#808080" (3/10) 128 128 128 (by norm_num) (by decide)).trans
    (by norm_num [Rat.floor_def])

/-! ### Claim C1 -/

/-- The executable `Nat.sqrt (9 * d) / 2` of `addTileWatermark` is the
mathematical `⌊1.5 * √d⌋` of `int(math.sqrt(...) * 1.5)`. -/
theorem tempSize_eq_floor (d : ℕ) :
    ((Nat.sqrt (9 * d) / 2 : ℕ) : ℤ) = ⌊Real.sqrt d * 1.5⌋ := by
  have h0 : (0 : ℝ) ≤ Real.sqrt d * 1.5 := by positivity
  have h9 : Real.sqrt ((9 * d : ℕ) : ℝ) = 3 * Real.sqrt d := by
    push_cast
    rw [show ((9 : ℝ) * (d : ℝ)) = 3 ^ 2 * (d : ℝ) by ring,
      Real.sqrt_mul (by positivity) ((d : ℝ)), Real.sqrt_sq (by norm_num)]
  have hval : Real.sqrt (d : ℝ) * 1.5 = Real.sqrt ((9 * d : ℕ) : ℝ) / 2 := by
    rw [h9, show (1.5 : ℝ) = 3 / 2 by norm_num]
    ring
  have key : Nat.sqrt (9 * d) / 2 = ⌊Real.sqrt (d : ℝ) * 1.5⌋₊ := by
    rw [hval, Nat.floor_div_ofNat, Real.nat_floor_real_sqrt_eq_nat_sqrt]
  rw [key, Int.natCast_floor_eq_floor h0]

theorem mem_pyRangeNat {n step x : ℕ} (hs : 0 < step) :
    x ∈ pyRangeNat n step ↔ (∃ i, x = i * step) ∧ x < n := by
  simp only [pyRangeNat, List.mem_map, List.mem_range]
  constructor
  · rintro ⟨i, hi, rfl⟩
    refine ⟨⟨i, rfl⟩, ?_⟩
    have h2 : (i + 1) * step ≤ n + step - 1 := (Nat.le_div_iff_mul_le hs).mp hi
    have h3 : i * step + step ≤ n + step - 1 := by
      calc i * step + step = (i + 1) * step := by ring
        _ ≤ n + step - 1 := h2
    set j := i * step with hj
    omega
  · rintro ⟨⟨i, rfl⟩, hlt⟩
    refine ⟨i, ?_, rfl⟩
    have h3 : (i + 1) * step ≤ n + step - 1 := by
      have : i * step + step ≤ n + step - 1 := by
        set j := i * step with hj
        omega
      calc (i + 1) * step = i * step + step := by ring
        _ ≤ n + step - 1 := this
    exact Nat.lt_of_lt_of_le (Nat.lt_succ_self i)
      (Nat.le_div_iff_mul_le hs |>.mpr h3)

/-- C1.  For every canvas `w × h` and TILE options (`spacing` in its
validated range, so the grid steps are positive), `_add_tile_watermark`:
builds a square working surface of side `⌊√(w² + h²) * 1.5⌋`; draws the
text exactly at the grid points `(i·(textWidth+spacing),
j·(textHeight+spacing))` inside the surface, starting at `(0, 0)`;
rotates the surface by `angle` with `expand=False` (no canvas growth);
crops a box of exactly `w × h` whose center coincides with the surface
center up to one pixel of integer-division rounding; and pastes the crop
at `(0, 0)` onto the overlay. -/
theorem c1 (w h text_width text_height spacing : ℕ) (angle : ℚ)
    (hsp : 20 ≤ spacing) :
    (((addTileWatermark w h text_width text_height spacing angle).tempSize : ℤ)
        = ⌊Real.sqrt ((w : ℝ) ^ 2 + (h : ℝ) ^ 2) * 1.5⌋)
    ∧ (∀ x y, (x, y) ∈ (addTileWatermark w h text_width text_height spacing angle).tiles ↔
        ((∃ i, x = i * (text_width + spacing)) ∧ (∃ j, y = j * (text_height + spacing))
          ∧ x < (addTileWatermark w h text_width text_height spacing angle).tempSize
          ∧ y < (addTileWatermark w h text_width text_height spacing angle).tempSize))
    ∧ (addTileWatermark w h text_width text_height spacing angle).rotateAngle = angle
    ∧ (addTileWatermark w h text_width text_height spacing angle).rotateExpand = false
    ∧ (addTileWatermark w h text_width text_height spacing angle).cropRight
        - (addTileWatermark w h text_width text_height spacing angle).cropLeft = w
    ∧ (addTileWatermark w h text_width text_height spacing angle).cropBottom
        - (addTileWatermark w h text_width text_height spacing angle).cropTop = h
    ∧ ((addTileWatermark w h text_width text_height spacing angle).cropLeft
        + (addTileWatermark w h text_width text_height spacing angle).cropRight
        - (addTileWatermark w h text_width text_height spacing angle).tempSize).natAbs ≤ 1
    ∧ ((addTileWatermark w h text_width text_height spacing angle).cropTop
        + (addTileWatermark w h text_width text_height spacing angle).cropBottom
        - (addTileWatermark w h text_width text_height spacing angle).tempSize).natAbs ≤ 1
    ∧ (addTileWatermark w h text_width text_height spacing angle).pastePos = (0, 0) := by
  refine ⟨?_, ?_, rfl, rfl, by simp [addTileWatermark], by simp [addTileWatermark],
    ?_, ?_, rfl⟩
  · have := tempSize_eq_floor (w ^ 2 + h ^ 2)
    simp only [addTileWatermark]
    rw [this]
    push_cast
    rfl
  · intro x y
    simp only [addTileWatermark, List.mem_flatMap, List.mem_map, Prod.mk.injEq]
    constructor
    · rintro ⟨y', hy', x', hx', rfl, rfl⟩
      have hx := (mem_pyRangeNat (by omega)).mp hx'
      have hy := (mem_pyRangeNat (by omega)).mp hy'
      exact ⟨hx.1, hy.1, hx.2, hy.2⟩
    · rintro ⟨hix, hjy, hxlt, hylt⟩
      exact ⟨y, (mem_pyRangeNat (by omega)).mpr ⟨hjy, hylt⟩,
        x, (mem_pyRangeNat (by omega)).mpr ⟨hix, hxlt⟩, rfl, rfl⟩
  · simp only [addTileWatermark]
    omega
  · simp only [addTileWatermark]
    omega

/-- C1, witness at a 4 × 3 canvas with 1 × 2 text metrics and the minimum
validated spacing: surface side `⌊1.5 · 5⌋ = 7`, grid containing `(0, 0)`,
crop of width 4. -/
theorem c1_witness :
    (((addTileWatermark 4 3 1 2 20 (-45)).tempSize : ℤ)
        = ⌊Real.sqrt ((4 : ℝ) ^ 2 + (3 : ℝ) ^ 2) * 1.5⌋)
    ∧ (0, 0) ∈ (addTileWatermark 4 3 1 2 20 (-45)).tiles
    ∧ (addTileWatermark 4 3 1 2 20 (-45)).cropRight
        - (addTileWatermark 4 3 1 2 20 (-45)).cropLeft = 4 :=
  ⟨(c1 4 3 1 2 20 (-45) (by decide)).1,
    ((c1 4 3 1 2 20 (-45) (by decide)).2.1 0 0).mpr
      ⟨⟨0, rfl⟩, ⟨0, rfl⟩, by norm_num [addTileWatermark],
        by norm_num [addTileWatermark]⟩,
    (c1 4 3 1 2 20 (-45) (by decide)).2.2.2.2.1⟩

/-! ### Claim C6 -/

theorem fontLoadLoop_eq_find (fs : FileSystem) (size : ℕ) (l : List String) :
    fontLoadLoop fs size l =
      match l.find? (fun p => fs.pathExists p && fs.loadOk p) with
      | some p => FontHandle.file p size (if ttcSuffix p then some 0 else none)
      | none => FontHandle.builtin := by
  induction l with
  | nil => rfl
  | cons p rest ih =>
    by_cases h1 : fs.pathExists p
    · by_cases h2 : fs.loadOk p
      · simp [fontLoadLoop, List.find?_cons, h1, h2]
      · simp [fontLoadLoop, List.find?_cons, h1, h2, ih]
    · simp [fontLoadLoop, List.find?_cons, h1, ih]

/-- C6.  `get_font` never fails: it scans, in order, the custom path (only
when configured and existing), the fixed known locations, then the
dynamically discovered fonts; the first candidate that both exists and
loads wins (a candidate that exists but fails to load is skipped, with
face index 0 for `.ttc` collections); if no candidate loads, the built-in
default font is returned — so the caller always receives a handle. -/
theorem c6 (fs : FileSystem) (customPath : String) (dyn : List String)
    (size : ℕ) :
    (get_font fs customPath dyn size =
      match (fontCandidates fs customPath dyn).find?
          (fun p => fs.pathExists p && fs.loadOk p) with
      | some p => FontHandle.file p size (if ttcSuffix p then some 0 else none)
      | none => FontHandle.builtin)
    ∧ fontCandidates fs customPath dyn =
        (if customPath ≠ "" ∧ fs.pathExists customPath then [customPath] else [])
          ++ CHINESE_FONT_PATHS ++ dyn
    ∧ ((∃ p, get_font fs customPath dyn size
          = FontHandle.file p size (if ttcSuffix p then some 0 else none))
        ∨ get_font fs customPath dyn size = FontHandle.builtin) := by
  refine ⟨fontLoadLoop_eq_find fs size (fontCandidates fs customPath dyn), rfl, ?_⟩
  rw [get_font, fontLoadLoop_eq_find]
  cases (fontCandidates fs customPath dyn).find?
      (fun p => fs.pathExists p && fs.loadOk p) with
  | none => exact Or.inr rfl
  | some p => exact Or.inl ⟨p, rfl⟩

/-! ### Claim C7 -/

/-- C7.  Corner placements sit a fixed 20-pixel margin from their corner,
with the text width subtracted on the right and the text height
subtracted at the bottom; any position outside the four corner keys gets
TOP_LEFT's `(20, 20)`; and whenever the text plus both margins fits the
canvas, every resulting draw position keeps the text fully inside the
20-pixel margin. -/
theorem c7 (w h text_width text_height : ℕ) :
    (ImageWatermarker_getCornerPosition w h text_width text_height
        WatermarkPosition.topLeft = (20, 20)
      ∧ ImageWatermarker_getCornerPosition w h text_width text_height
          WatermarkPosition.topRight = ((w : ℤ) - text_width - 20, 20)
      ∧ ImageWatermarker_getCornerPosition w h text_width text_height
          WatermarkPosition.bottomLeft = (20, (h : ℤ) - text_height - 20)
      ∧ ImageWatermarker_getCornerPosition w h text_width text_height
          WatermarkPosition.bottomRight
          = ((w : ℤ) - text_width - 20, (h : ℤ) - text_height - 20))
    ∧ (∀ pos, pos ≠ WatermarkPosition.topLeft → pos ≠ WatermarkPosition.topRight →
        pos ≠ WatermarkPosition.bottomLeft → pos ≠ WatermarkPosition.bottomRight →
        ImageWatermarker_getCornerPosition w h text_width text_height pos = (20, 20))
    ∧ (text_width + 40 ≤ w → text_height + 40 ≤ h → ∀ pos,
        20 ≤ (ImageWatermarker_getCornerPosition w h text_width text_height pos).1
        ∧ (ImageWatermarker_getCornerPosition w h text_width text_height pos).1
            + text_width ≤ (w : ℤ) - 20
        ∧ 20 ≤ (ImageWatermarker_getCornerPosition w h text_width text_height pos).2
        ∧ (ImageWatermarker_getCornerPosition w h text_width text_height pos).2
            + text_height ≤ (h : ℤ) - 20) := by
  refine ⟨⟨rfl, rfl, rfl, rfl⟩, ?_, ?_⟩
  · intro pos h1 h2 h3 h4
    cases pos with
    | topLeft => exact absurd rfl h1
    | topRight => exact absurd rfl h2
    | bottomLeft => exact absurd rfl h3
    | bottomRight => exact absurd rfl h4
    | tile => rfl
    | center => rfl
  · intro hw hh pos
    cases pos <;>
      refine ⟨?_, ?_, ?_, ?_⟩ <;>
        simp only [ImageWatermarker_getCornerPosition] <;> push_cast <;> omega

/-- C7, witness on a 200 × 100 canvas with 50 × 10 text. -/
theorem c7_witness :
    ImageWatermarker_getCornerPosition 200 100 50 10 WatermarkPosition.tile = (20, 20)
      ∧ ImageWatermarker_getCornerPosition 200 100 50 10 WatermarkPosition.topRight
          = (130, 20)
      ∧ 20 ≤ (ImageWatermarker_getCornerPosition 200 100 50 10
          WatermarkPosition.bottomRight).1 :=
  ⟨(c7 200 100 50 10).2.1 WatermarkPosition.tile
      (by decide) (by decide) (by decide) (by decide),
    ((c7 200 100 50 10).1.2.1).trans (by norm_num),
    ((c7 200 100 50 10).2.2 (by norm_num) (by norm_num)
      WatermarkPosition.bottomRight).1⟩

/-! ### Claim C2 -/

/-- C2.  The dispatcher routes `"image"` to the raster watermarker (with
the output format looked up from the extension), `"pdf"` to the
paged-document watermarker and `"word"` to the flow-document watermarker;
an absent `config` is replaced by the documented default value set; and
every other tag fails with `UnsupportedFileType`, producing no output. -/
theorem c2 (fs : FileSystem) (customPath : String) (dyn : List String)
    (codec : Codec) (file_data : List ℕ) (text : String) (file_type : String)
    (config : Option WatermarkConfig) (file_extension : String) :
    (file_type = "image" →
      add_watermark fs customPath dyn codec file_data text file_type config
          file_extension
        = (ImageWatermarker_addWatermark fs customPath dyn codec file_data text
            (config.getD defaultWatermarkConfig)
            (formatFromExt file_extension)).map RenderOutput.image)
    ∧ (file_type = "pdf" →
      add_watermark fs customPath dyn codec file_data text file_type config
          file_extension
        = (PDFWatermarker_addWatermark fs customPath dyn codec file_data text
            (config.getD defaultWatermarkConfig)).map RenderOutput.pdf)
    ∧ (file_type = "word" →
      add_watermark fs customPath dyn codec file_data text file_type config
          file_extension
        = (WordWatermarker_addWatermark codec file_data text
            (config.getD defaultWatermarkConfig)).map RenderOutput.word)
    ∧ (config = none →
      add_watermark fs customPath dyn codec file_data text file_type config
          file_extension
        = add_watermark fs customPath dyn codec file_data text file_type
            (some defaultWatermarkConfig) file_extension)
    ∧ defaultWatermarkConfig =
        { font_size := 40, font_color := "#808080", opacity := 3/10,
          angle := -45, spacing := 100, position := WatermarkPosition.tile }
    ∧ (file_type ≠ "image" → file_type ≠ "pdf" → file_type ≠ "word" →
      add_watermark fs customPath dyn codec file_data text file_type config
          file_extension
        = Except.error WatermarkError.UnsupportedFileType) := by
  refine ⟨?_, ?_, ?_, ?_, rfl, ?_⟩
  · rintro rfl
    rfl
  · rintro rfl
    rfl
  · rintro rfl
    rfl
  · rintro rfl
    rfl
  · intro h1 h2 h3
    simp [add_watermark, h1, h2, h3]

/-- A filesystem on which no candidate font exists. -/
def sampleFS : FileSystem :=
  { pathExists := fun _ => false
    loadOk := fun _ => false
    registerOk := fun _ => false }

/-- Concrete decoders: an 800 × 600 canvas, 10-per-character text
metrics, a two-page document, a one-section document. -/
def sampleCodec : Codec :=
  { decodeImage := fun _ => Except.ok (800, 600)
    measureText := fun _ t => (10 * t.length, 20)
    decodePdf := fun _ =>
      Except.ok [{ contentId := 0, overlays := [] }, { contentId := 1, overlays := [] }]
    decodeWord := fun _ => Except.ok [{ headerParas := [] }] }

/-- C2, witness: the unknown tag `"spreadsheet"` is rejected. -/
theorem c2_witness :
    add_watermark sampleFS "" [] sampleCodec [] "SAMPLE" "spreadsheet" none ".png"
      = Except.error WatermarkError.UnsupportedFileType :=
  (c2 sampleFS "" [] sampleCodec [] "SAMPLE" "spreadsheet" none ".png").2.2.2.2.2
    (by decide) (by decide) (by decide)

/-! ### Claim C3 -/

/-- C3.  For every parseable document, the paged-document watermarker
computes one overlay for the whole request and merges that same overlay
value onto every page: the output has exactly the pages of the input, in
order — page `i` of the output is page `i` of the input with the single
overlay stacked on top, and the underlying content sequence is unchanged. -/
theorem c3 (fs : FileSystem) (customPath : String) (dyn : List String)
    (codec : Codec) (pdf_data : List ℕ) (text : String) (cfg : WatermarkConfig)
    (wm : PdfOverlay) (pages : List PdfPage)
    (hwm : PDFWatermarker_createWatermarkPdf fs customPath dyn text cfg
      = Except.ok wm)
    (hpages : codec.decodePdf pdf_data = Except.ok pages) :
    PDFWatermarker_addWatermark fs customPath dyn codec pdf_data text cfg
        = Except.ok (pages.map (mergePage wm))
    ∧ (pages.map (mergePage wm)).length = pages.length
    ∧ (∀ i : ℕ, (pages.map (mergePage wm))[i]? = (pages[i]?).map (mergePage wm))
    ∧ (pages.map (mergePage wm)).map PdfPage.contentId = pages.map PdfPage.contentId
    ∧ (∀ (i : ℕ) (p : PdfPage), pages[i]? = some p →
        (pages.map (mergePage wm))[i]?
          = some { p with overlays := p.overlays ++ [wm] }) := by
  refine ⟨?_, List.length_map pages (mergePage wm), ?_, ?_, ?_⟩
  · simp only [PDFWatermarker_addWatermark, hwm, hpages]
    rfl
  · intro i
    exact List.getElem?_map (mergePage wm) pages i
  · simp [mergePage, Function.comp]
  · intro i p hp
    rw [List.getElem?_map (mergePage wm) pages i, hp]
    rfl

/-- A center-position configuration used by the PDF witnesses (the
default options with `position = CENTER`). -/
def sampleCenterConfig : WatermarkConfig :=
  { defaultWatermarkConfig with position := WatermarkPosition.center }

/-- The overlay the embedding produces for `sampleCenterConfig` on a
fontless filesystem. -/
def sampleCenterOverlay : PdfOverlay :=
  { alpha := 3/10
    rgb := (128/255, 128/255, 128/255)
    fontName := "Helvetica"
    fontSize := 40
    plan := PdfPlan.center (-45) }

/-- C3, witness: a concrete two-page document gets the same single
overlay on both pages, in order. -/
theorem c3_witness :
    PDFWatermarker_addWatermark sampleFS "" [] sampleCodec [] "SAMPLE"
        sampleCenterConfig
      = Except.ok
          [{ contentId := 0, overlays := [sampleCenterOverlay] },
           { contentId := 1, overlays := [sampleCenterOverlay] }] :=
  ((c3 sampleFS "" [] sampleCodec [] "SAMPLE" sampleCenterConfig
      sampleCenterOverlay
      [{ contentId := 0, overlays := [] }, { contentId := 1, overlays := [] }]
      rfl rfl).1).trans rfl

/-! ### Claim C8 -/

/-- The spacing of a TILE overlay plan, when there is one. -/
def PdfPlan.tileSpacing : PdfPlan → Option ℚ
  | PdfPlan.tile s _ _ => some s
  | _ => none

/-- C8.  For a TILE watermark on a page surface, the grid spacing equals
`config.spacing + config.font_size * len(text) * 0.6` — the configured
spacing widened by the approximated text width. -/
theorem c8 (fs : FileSystem) (customPath : String) (dyn : List String)
    (text : String) (cfg : WatermarkConfig)
    (hpos : cfg.position = WatermarkPosition.tile)
    (hcol : ∃ c, hex_to_rgb cfg.font_color = Except.ok c) :
    (PDFWatermarker_createWatermarkPdf fs customPath dyn text cfg).map
        (fun wm => wm.plan.tileSpacing)
      = Except.ok
          (some ((cfg.spacing : ℚ) + (cfg.font_size : ℚ) * text.length * (3/5))) := by
  obtain ⟨⟨r, g, b⟩, hc⟩ := hcol
  simp only [PDFWatermarker_createWatermarkPdf, hc, hpos, if_pos rfl]
  rfl

/-- C8, witness: default options (`spacing = 100`, `font_size = 40`) and
a one-character text give `100 + 40 · 1 · 0.6 = 124`. -/
theorem c8_witness :
    (PDFWatermarker_createWatermarkPdf sampleFS "" [] "W"
        defaultWatermarkConfig).map (fun wm => wm.plan.tileSpacing)
      = Except.ok (some 124) :=
  (c8 sampleFS "" [] "W" defaultWatermarkConfig rfl
      ⟨(128, 128, 128), by decide⟩).trans
    (by rw [show ("W" : String).length = 1 from rfl]
        norm_num [defaultWatermarkConfig])

/-! ### Claim C9 -/

/-- The shape carried by the last run of the first header paragraph. -/
def firstParaLastShape (s : DocSection) : Option WordShape :=
  ((s.headerParas.headD { runs := [] }).runs.getLast?).bind WordRun.pict

/-- C9.  The flow-document watermarker never raises
`UnsupportedDocumentStructure`: every section has (or is given) a header
— a section with no header paragraph gets one created — and the
watermark shape is appended to the first paragraph of each section's
header; the section count is preserved.  The claim's failure clause is
vacuous: in the document model (python-docx), a header region is always
addressable, so no input reaches an error. -/
theorem c9 (text : String) (cfg : WatermarkConfig) (c : ℤ × ℤ × ℤ)
    (hc : hex_to_rgb cfg.font_color = Except.ok c) :
    (∀ s, addWatermarkToSection text cfg s
        ≠ Except.error WatermarkError.UnsupportedDocumentStructure)
    ∧ (∀ s, ∃ s', addWatermarkToSection text cfg s = Except.ok s'
        ∧ s'.headerParas ≠ []
        ∧ firstParaLastShape s' = some (wordShapeFor text cfg)
        ∧ (s.headerParas = [] →
            s'.headerParas = [{ runs := [{ pict := some (wordShapeFor text cfg) }] }])
        ∧ s'.headerParas.length = max s.headerParas.length 1)
    ∧ (∀ secs : List DocSection, ∃ secs',
        wordApplyAll text cfg secs = Except.ok secs'
          ∧ secs'.length = secs.length) := by
  have hsec : ∀ s : DocSection, addWatermarkToSection text cfg s
      = Except.ok { headerParas :=
          (appendShapeToFirstPara
            (if s.headerParas.isEmpty then s.headerParas ++ [{ runs := [] }]
              else s.headerParas) (wordShapeFor text cfg)) } := by
    intro s
    simp only [addWatermarkToSection, hc, exceptBindOk]
  refine ⟨?_, ?_, ?_⟩
  · intro s h
    rw [hsec s] at h
    exact Except.noConfusion h
  · intro s
    obtain ⟨ps⟩ := s
    cases ps with
    | nil =>
      exact ⟨{ headerParas := [{ runs := [{ pict := some (wordShapeFor text cfg) }] }] },
        hsec _, by simp, rfl, fun _ => rfl, by simp⟩
    | cons p rest =>
      refine ⟨{ headerParas :=
          { runs := p.runs ++ [{ pict := some (wordShapeFor text cfg) }] } :: rest },
        hsec _, by simp, ?_, by simp, ?_⟩
      · simp [firstParaLastShape, List.getLast?_concat]
      · simp only [List.length_cons]
        omega
  · intro secs
    induction secs with
    | nil => exact ⟨[], rfl, rfl⟩
    | cons s rest ih =>
      obtain ⟨rest', hr, hl⟩ := ih
      refine ⟨{ headerParas :=
          (appendShapeToFirstPara
            (if s.headerParas.isEmpty then s.headerParas ++ [{ runs := [] }]
              else s.headerParas) (wordShapeFor text cfg)) } :: rest',
        ?_, by simp [hl]⟩
      simp only [wordApplyAll] at hr ⊢
      rw [List.mapM_cons, hsec s]
      simp only [hr]
      rfl

/-- C9, witness: a section with an empty header is handled, not
rejected. -/
theorem c9_witness :
    addWatermarkToSection "SAMPLE" defaultWatermarkConfig { headerParas := [] }
      ≠ Except.error WatermarkError.UnsupportedDocumentStructure :=
  (c9 "SAMPLE" defaultWatermarkConfig (128, 128, 128) (by decide)).1
    { headerParas := [] }

/-! ### Claim C10 -/

/-- The rotation applied by a PDF overlay plan (`c.rotate` is issued for
the TILE and CENTER branches; the corner branch draws unrotated). -/
def PdfPlan.rotationAngle : PdfPlan → Option ℚ
  | PdfPlan.tile _ a _ => some a
  | PdfPlan.center a => some a
  | PdfPlan.corner _ => none

/-- C10.  The Word shape's `rotation` style attribute is `int(angle)` —
truncation toward zero, so `-44.7` becomes `-44` — while the raster path
rotates the tile surface and the whole overlay layer by the full
fractional `angle`, as does the paged-document overlay. -/
theorem c10 (text : String) (cfg : WatermarkConfig)
    (w h text_width text_height : ℕ) (font : FontHandle) (fmt : String)
    (fs : FileSystem) (customPath : String) (dyn : List String) :
    ((wordShapeFor text cfg).rotation = pyTrunc cfg.angle)
    ∧ (∀ tr, imageCore w h text_width text_height font cfg fmt = Except.ok tr →
        (∀ t, tr.plan = ImagePlan.tile t → t.rotateAngle = cfg.angle)
        ∧ (cfg.position ≠ WatermarkPosition.tile → cfg.angle ≠ 0 →
            tr.layerRotate = some cfg.angle))
    ∧ (∀ wm, PDFWatermarker_createWatermarkPdf fs customPath dyn text cfg
          = Except.ok wm →
        (cfg.position = WatermarkPosition.tile
          ∨ cfg.position = WatermarkPosition.center) →
        wm.plan.rotationAngle = some cfg.angle)
    ∧ pyTrunc (-447/10 : ℚ) = -44 := by
  refine ⟨rfl, ?_, ?_, ?_⟩
  · intro tr htr
    cases hcol : hex_to_rgba cfg.font_color cfg.opacity with
    | error e => simp [imageCore, hcol, exceptBindError] at htr
    | ok col =>
      simp only [imageCore, hcol, exceptBindOk, Except.ok.injEq] at htr
      constructor
      · intro t ht
        by_cases hp : cfg.position = WatermarkPosition.tile
        · rw [← htr] at ht
          simp only [hp, if_pos rfl] at ht
          have ht' := ImagePlan.tile.inj ht
          rw [← ht']
          rfl
        · rw [← htr] at ht
          by_cases hpc : cfg.position = WatermarkPosition.center <;>
            simp [hp, hpc] at ht
      · intro h1 h2
        rw [← htr]
        simp [h1, h2]
  · intro wm hwm hpos
    cases hc : hex_to_rgb cfg.font_color with
    | error e => simp [PDFWatermarker_createWatermarkPdf, hc, exceptBindError] at hwm
    | ok rgbv =>
      obtain ⟨r, ⟨g, b⟩⟩ := rgbv
      simp only [PDFWatermarker_createWatermarkPdf, hc, exceptBindOk,
        Except.ok.injEq] at hwm
      rcases hpos with hp | hp <;> rw [← hwm] <;>
        simp [hp, PdfPlan.rotationAngle]
  · rw [show pyTrunc (-447/10 : ℚ) = -⌊(447/10 : ℚ)⌋ from by
      unfold pyTrunc
      rw [if_pos (by norm_num)]
      norm_num]
    norm_num [Rat.floor_def]

/-- The default options with the claim's fractional angle `-44.7` and a
center position. -/
def sampleAngleConfig : WatermarkConfig :=
  { defaultWatermarkConfig with
      angle := -447/10, position := WatermarkPosition.center }

/-- C10, witness: at angle `-44.7`, the Word shape's rotation attribute
is the truncated `-44`. -/
theorem c10_witness :
    (wordShapeFor "SAMPLE" sampleAngleConfig).rotation = -44 :=
  ((c10 "SAMPLE" sampleAngleConfig 800 600 60 20 FontHandle.builtin "PNG"
      sampleFS "" []).1).trans
    ((c10 "SAMPLE" sampleAngleConfig 800 600 60 20 FontHandle.builtin "PNG"
      sampleFS "" []).2.2.2)

end Watermarker
